import Mathlib

/-!
Verification of the msh shell core (src/parser.rs, src/context.rs, src/repl.rs)
against its natural-language specification.

Strings are modelled as `List Char` restricted to the ASCII range: the Rust
code scans `u8` bytes and rebuilds strings with `b as char`, which agrees with
per-`Char` scanning on ASCII input.  Recursions that are not structural in the
source (the token scanner resumes after a quoted region; variable expansion
skips a whole `$NAME` run at once) are given a fuel parameter; every scanning
step consumes at least one input character, so the wrappers pass
`length + 1` fuel, which never runs out.
-/

namespace Msh

/-- Word-separator bytes of the tokenizer: space and tab (parser.rs `arg`,
`expand_line`). -/
def isWs (c : Char) : Bool :=
  c = ' ' || c = '\t'

/-- ASCII fragment of Rust `char::is_whitespace`, used by
`full_line.trim().is_empty()` in `handle_line`. -/
def isTrimWs (c : Char) : Bool :=
  c = ' ' || c = '\t' || c = '\n' || c = '\r' || Char.ofNat 11 = c || Char.ofNat 12 = c

/-- Bytes allowed in a `$NAME` environment-variable name
(parser.rs `expand_var`: `b'a'...b'z' | b'A'...b'Z' | b'_' | b'0'...b'9'`). -/
def isVarChar (c : Char) : Bool :=
  ('a' ≤ c && c ≤ 'z') || ('A' ≤ c && c ≤ 'Z') || ('0' ≤ c && c ≤ '9') || c = '_'

/-- Embedding of parser.rs `double_quoted`: scan after an opening `"` until the
matching unescaped `"`.  Returns the consumed span (closing quote included, as
the source slices `line[start..=i]`) and the unconsumed remainder; a backslash
skips the following byte.  Reaching the end of input is the unterminated-quote
error. -/
def dq : List Char → Except String (List Char × List Char)
  | [] => .error "Unterminated double quote"
  | '"' :: r => .ok (['"'], r)
  | '\\' :: r =>
    match r with
    | [] => .error "Unterminated double quote"
    | x :: r2 =>
      match dq r2 with
      | .error e => .error e
      | .ok (s, rest) => .ok ('\\' :: x :: s, rest)
  | c :: r =>
    match dq r with
    | .error e => .error e
    | .ok (s, rest) => .ok (c :: s, rest)

/-- Embedding of parser.rs `single_quoted`: scan verbatim after an opening `'`
until the next `'` (no escape processing). -/
def sq : List Char → Except String (List Char × List Char)
  | [] => .error "Unterminated single quote"
  | '\'' :: r => .ok (['\''], r)
  | c :: r =>
    match sq r with
    | .error e => .error e
    | .ok (s, rest) => .ok (c :: s, rest)

/-- Embedding of the token-scanning loop of parser.rs `arg` (after its leading
whitespace skip, which is vacuous at its call site in `expand_line`): consume
one raw token span.  Quote characters and backslashes stay inside the span,
exactly as the source returns the raw slice `line[i..j]`.  An unquoted
space/tab ends the token and is left unconsumed; a backslash consumes the
following byte; a trailing lone backslash stays in the span. -/
def argGo : Nat → List Char → Except String (List Char × List Char)
  | 0, _ => .error "fuel exhausted"
  | _ + 1, [] => .ok ([], [])
  | f + 1, c :: r =>
    if isWs c then .ok ([], c :: r)
    else if c = '"' then
      match dq r with
      | .error e => .error e
      | .ok (s, rest) =>
        match argGo f rest with
        | .error e => .error e
        | .ok (t, rest2) => .ok ('"' :: (s ++ t), rest2)
    else if c = '\'' then
      match sq r with
      | .error e => .error e
      | .ok (s, rest) =>
        match argGo f rest with
        | .error e => .error e
        | .ok (t, rest2) => .ok ('\'' :: (s ++ t), rest2)
    else if c = '\\' then
      match r with
      | [] => .ok (['\\'], [])
      | x :: r2 =>
        match argGo f r2 with
        | .error e => .error e
        | .ok (t, rest2) => .ok ('\\' :: x :: t, rest2)
    else
      match argGo f r with
      | .error e => .error e
      | .ok (t, rest2) => .ok (c :: t, rest2)

/-- Embedding of the driving loop of parser.rs `expand_line` (the token
collection part, before `expand_var` is applied): skip space/tab runs, collect
successive raw tokens. -/
def tokenizeGo : Nat → List Char → Except String (List (List Char))
  | 0, _ => .error "fuel exhausted"
  | _ + 1, [] => .ok []
  | f + 1, c :: r =>
    if isWs c then tokenizeGo f r
    else
      match argGo (r.length + 2) (c :: r) with
      | .error e => .error e
      | .ok (t, rest) =>
        match tokenizeGo f rest with
        | .error e => .error e
        | .ok ts => .ok (t :: ts)

/-- The tokenizer of §4.1: one logical line to its raw token spans, prior to
expansion. -/
def tokenizeLine (l : List Char) : Except String (List (List Char)) :=
  tokenizeGo (l.length + 1) l

/-- Embedding of the scanning loop of parser.rs `expand_var`.  `env` is the
process environment (`std::env::var`), `home` the invoking user's home
directory (`get_home_dir`).  `none` models the `unreachable!()` panic hit when
a token ends in a lone backslash (`bytes.next()` returns `None` after the
backslash was consumed).  Out of fuel is also `none`; the wrapper's fuel
suffices because every step consumes at least one character. -/
def expandGo (env : List Char → Option (List Char)) (home : List Char) :
    Nat → List Char → Option (List Char)
  | 0, _ => none
  | _ + 1, [] => some []
  | f + 1, c :: r =>
    if c = '\\' then
      match r with
      | [] => none
      | x :: r2 => (expandGo env home f r2).map (x :: ·)
    else if c = '$' then
      (expandGo env home f (r.dropWhile isVarChar)).map
        (((env (r.takeWhile isVarChar)).getD ('$' :: r.takeWhile isVarChar)) ++ ·)
    else if c = '~' then
      (expandGo env home f r).map (home ++ ·)
    else
      (expandGo env home f r).map (c :: ·)

/-- Embedding of parser.rs `expand_var`: a token starting with `'` is returned
verbatim; any other token is scanned byte-by-byte. -/
def expandVar (env : List Char → Option (List Char)) (home : List Char)
    (s : List Char) : Option (List Char) :=
  if s.head? = some '\'' then some s
  else expandGo env home (s.length + 1) s

/-- Outcome of parser.rs `expand_line`: a lexer error (unterminated quote), a
panic inside `expand_var`, or the expanded argument list. -/
inductive ExpandResult
  | lexError (e : String)
  | panicked
  | ok (args : List (List Char))
deriving DecidableEq, Repr

/-- Embedding of parser.rs `expand_line`: tokenize, then map `expand_var` over
the raw tokens. -/
def expandLine (env : List Char → Option (List Char)) (home : List Char)
    (l : List Char) : ExpandResult :=
  match tokenizeLine l with
  | .error e => .lexError e
  | .ok toks =>
    match toks.mapM (expandVar env home) with
    | none => .panicked
    | some args => .ok args

/-- The specification's expansion rules (§4.1 step 7 of spec.md), written from
the spec's words for the refinement claim about `expand_var`: `\X` becomes the
literal `X`; `$NAME` with `NAME` drawn from `[A-Za-z0-9_]+` becomes the value
of environment variable `NAME`, or stays the literal text `$NAME` when unset;
`~` becomes the home directory; all other bytes are copied verbatim (so a `$`
not followed by a name character is an ordinary byte).  A trailing lone
backslash has no `X` and is left undefined (`none`), like the code. -/
def specExpandGo (env : List Char → Option (List Char)) (home : List Char) :
    Nat → List Char → Option (List Char)
  | 0, _ => none
  | _ + 1, [] => some []
  | f + 1, c :: r =>
    if c = '\\' then
      match r with
      | [] => none
      | x :: r2 => (specExpandGo env home f r2).map (x :: ·)
    else if c = '$' then
      match r.takeWhile isVarChar with
      | [] => (specExpandGo env home f r).map ('$' :: ·)
      | _ :: _ =>
        (specExpandGo env home f (r.dropWhile isVarChar)).map
          (((env (r.takeWhile isVarChar)).getD ('$' :: r.takeWhile isVarChar)) ++ ·)
    else if c = '~' then
      (specExpandGo env home f r).map (home ++ ·)
    else
      (specExpandGo env home f r).map (c :: ·)

/-- Wrapper for `specExpandGo` at sufficient fuel, on the non-single-quoted
tokens the spec sentence is about. -/
def specExpandVar (env : List Char → Option (List Char)) (home : List Char)
    (s : List Char) : Option (List Char) :=
  specExpandGo env home (s.length + 1) s

/-- The Action sum type of repl.rs (`enum Action`). -/
inductive Action
  | loop
  | dump
  | buffer (s : List Char)
  | register (v : List (List Char))
  | unregister (v : List (List Char))
  | registerFile (s : List Char)
  | clearRegistry (v : List (List Char))
  | chDir (s : List Char)
  | storeEnv (name value : List Char)
  | removeEnv (name : List Char)
  | execute (v : List (List Char))
  | exit (s : Option (List Char))
deriving DecidableEq, Repr

/-- Error kinds of the clap 2.x matcher that parser.rs `get_builtin`
discriminates on. -/
inductive ClapErr
  | unknownArgument
  | unrecognizedSubcommand
  | helpDisplayed
  | missingRequiredArgument
deriving DecidableEq, Repr

/-- Successful clap matches for the builtin grammar declared in
parser.rs `get_builtin`.  `noSubcommand` is a successful parse of an empty
argument list (no subcommand selected).  Note the registered subcommand is
named `dirs` (parser.rs line 31) while the dispatch arm matches `dump`. -/
inductive Matches
  | noSubcommand
  | exitCmd
  | helpCmd
  | dirs
  | cd (dir : List Char)
  | echo (args : List (List Char))
  | var (name : List Char) (value : Option (List Char)) (delete : Bool)
  | register (dirs : List (List Char))
  | unregister (dirs : List (List Char))
  | registerFile (file : List Char)
  | clearRegister (dirs : List (List Char))
deriving DecidableEq, Repr

/-- A token that clap 2.x parses as a flag: it starts with `-` and is not the
bare `-`. -/
def isFlagLike (t : List Char) : Bool :=
  t.head? = some '-' && t ≠ ['-']

/-- Clap's automatically added help flags. -/
def isHelpFlag (t : List Char) : Bool :=
  t = ['-', 'h'] || t = "--help".data

/-- Clap matching for a subcommand declared with no arguments
(`exit`/`quit`, `help`, `dirs`): any remaining token is unexpected. -/
def parseNoArgs (rest : List (List Char)) : Except ClapErr Unit :=
  match rest with
  | [] => .ok ()
  | t :: _ => if isHelpFlag t then .error .helpDisplayed else .error .unknownArgument

/-- Clap matching for `cd`: one optional positional `DIR` with the home
directory as default value. -/
def parseCd (home : List Char) (acc : Option (List Char)) :
    List (List Char) → Except ClapErr Matches
  | [] => .ok (.cd (acc.getD home))
  | t :: r =>
    if isHelpFlag t then .error .helpDisplayed
    else if isFlagLike t then .error .unknownArgument
    else
      match acc with
      | none => parseCd home (some t) r
      | some _ => .error .unknownArgument

/-- Clap matching for `echo`: any number of positionals, no flags declared. -/
def parseEcho (acc : List (List Char)) :
    List (List Char) → Except ClapErr Matches
  | [] => .ok (.echo acc.reverse)
  | t :: r =>
    if isHelpFlag t then .error .helpDisplayed
    else if isFlagLike t then .error .unknownArgument
    else parseEcho (t :: acc) r

/-- Clap matching for `var`: required positional `NAME`, optional positional
`VALUE`, flag `-d`/`--delete`; a third positional or an undeclared flag is an
unknown argument, a missing `NAME` is a missing required argument. -/
def parseVar (name value : Option (List Char)) (del : Bool) :
    List (List Char) → Except ClapErr Matches
  | [] =>
    match name with
    | none => .error .missingRequiredArgument
    | some n => .ok (.var n value del)
  | t :: r =>
    if t = "-d".data || t = "--delete".data then parseVar name value true r
    else if isHelpFlag t then .error .helpDisplayed
    else if isFlagLike t then .error .unknownArgument
    else
      match name with
      | none => parseVar (some t) value del r
      | some _ =>
        match value with
        | none => parseVar name (some t) del r
        | some _ => .error .unknownArgument

/-- Clap matching for a multi-value positional `DIRS`
(`register`/`unregister`: required with at least one value;
`clear-register`: optional). -/
def parseDirs (required : Bool) (build : List (List Char) → Matches)
    (acc : List (List Char)) : List (List Char) → Except ClapErr Matches
  | [] =>
    if required && acc.isEmpty then .error .missingRequiredArgument
    else .ok (build acc.reverse)
  | t :: r =>
    if isHelpFlag t then .error .helpDisplayed
    else if isFlagLike t then .error .unknownArgument
    else parseDirs required build (t :: acc) r

/-- Clap matching for `register-file`: exactly one required positional. -/
def parseFile (acc : Option (List Char)) :
    List (List Char) → Except ClapErr Matches
  | [] =>
    match acc with
    | none => .error .missingRequiredArgument
    | some f => .ok (.registerFile f)
  | t :: r =>
    if isHelpFlag t then .error .helpDisplayed
    else if isFlagLike t then .error .unknownArgument
    else
      match acc with
      | none => parseFile (some t) r
      | some _ => .error .unknownArgument

/-- Model of `builtins.get_matches_from_safe_borrow` for the clap `App` built
in parser.rs `get_builtin` (settings `NoBinaryName`, subcommands and aliases as
declared there).  It encodes the documented clap 2.x behaviors the source
relies on: the first token selects a subcommand (aliases included), later
tokens are matched against that subcommand's declared positionals and flags in
order; an undeclared flag or surplus positional is an `UnknownArgument` error,
an absent required positional a `MissingRequiredArgument` error, the
auto-generated `-h`/`--help` a `HelpDisplayed` error, and a first token
matching no subcommand an `UnrecognizedSubcommand` error (clap's did-you-mean
suggestions are not modelled). -/
def clapParse (home : List Char) (args : List (List Char)) :
    Except ClapErr Matches :=
  match args with
  | [] => .ok .noSubcommand
  | cmd :: rest =>
    if isHelpFlag cmd then .error .helpDisplayed
    else if isFlagLike cmd then .error .unknownArgument
    else if cmd = "exit".data || cmd = "quit".data then
      (parseNoArgs rest).map fun _ => .exitCmd
    else if cmd = "help".data then (parseNoArgs rest).map fun _ => .helpCmd
    else if cmd = "dirs".data then (parseNoArgs rest).map fun _ => .dirs
    else if cmd = "cd".data then parseCd home none rest
    else if cmd = "echo".data then parseEcho [] rest
    else if cmd = "var".data then parseVar none none false rest
    else if cmd = "register".data || cmd = "reg".data then
      parseDirs true .register [] rest
    else if cmd = "unregister".data || cmd = "unreg".data then
      parseDirs true .unregister [] rest
    else if cmd = "register-file".data || cmd = "regfile".data then
      parseFile none rest
    else if cmd = "clear-register".data || cmd = "clreg".data then
      parseDirs false .clearRegister [] rest
    else .error .unrecognizedSubcommand

/-- Embedding of parser.rs `get_builtin`.  `Except.error` models a panic:
the `var` arm calls `args.value_of("VALUE").unwrap()` although no default
value is declared for `VALUE`, so the unwrap panics whenever no value token was
given; and a successful match whose name has no dispatch arm (`dirs`, or no
subcommand at all) hits `unreachable!()`.  `Except.ok none` is the
no-builtin-match outcome that the caller turns into external execution;
`UnknownArgument` and `UnrecognizedSubcommand` errors are both mapped there,
while `HelpDisplayed` and every other clap error print a message and resolve
to `Action::Loop`. -/
def getBuiltin (home : List Char) (args : List (List Char)) :
    Except String (Option Action) :=
  match clapParse home args with
  | .error .unknownArgument => .ok none
  | .error .unrecognizedSubcommand => .ok none
  | .error .helpDisplayed => .ok (some .loop)
  | .error _ => .ok (some .loop)
  | .ok m =>
    match m with
    | .noSubcommand => .error "panicked: unreachable dispatch arm"
    | .dirs => .error "panicked: unreachable dispatch arm"
    | .exitCmd => .ok (some (.exit none))
    | .helpCmd => .ok (some .loop)
    | .cd d => .ok (some (.chDir d))
    | .echo _ => .ok (some .loop)
    | .var n v d =>
      match v with
      | none => .error "panicked: value_of(VALUE) unwrapped None"
      | some v => .ok (some (if d then .removeEnv n else .storeEnv n v))
    | .register ds => .ok (some (.register ds))
    | .unregister ds => .ok (some (.unregister ds))
    | .registerFile f => .ok (some (.registerFile f))
    | .clearRegister ds => .ok (some (.clearRegistry ds))

/-- The session state of context.rs `Context`: the pending continuation buffer
and the directory registry.  The registry `HashSet<PathBuf>` is modelled as a
duplicate-free list (insertion is guarded by membership, matching set
semantics; iteration order is irrelevant to the claims). -/
structure Ctx where
  buffer : List Char
  registry : List (List Char)
deriving DecidableEq, Repr

/-- Embedding of `Context::push_buffer` (repl.rs applies it to the payload of
`Action::Buffer`). -/
def pushBuffer (ctx : Ctx) (s : List Char) : Ctx :=
  { ctx with buffer := ctx.buffer ++ s }

/-- Embedding of the tail of parser.rs `handle_line`, after the continuation
check: the buffer has already been joined with the raw line (and cleared in
`take_buffer`), the blank line is a no-op, a lexer error is printed and the
line discarded, a panic in expansion or builtin dispatch aborts (modelled
`none`), a builtin match yields its Action, anything else yields `Execute`. -/
def processFull (env : List Char → Option (List Char)) (home : List Char)
    (ctx : Ctx) (full : List Char) : Option (Action × Ctx) :=
  if full.all isTrimWs then some (.loop, ctx)
  else
    match expandLine env home full with
    | .lexError _ => some (.loop, ctx)
    | .panicked => none
    | .ok args =>
      match getBuiltin home args with
      | .error _ => none
      | .ok (some a) => some (a, ctx)
      | .ok none => some (.execute args, ctx)

/-- Embedding of parser.rs `handle_line`: a raw line ending in a backslash is
returned as `Action::Buffer` of the line minus that final character, before
the tokenizer runs and without touching the context; otherwise the buffer is
consumed (`Context::take_buffer`), joined in front of the raw line, and the
joined logical line is processed.  `none` models a panic. -/
def handleLine (env : List Char → Option (List Char)) (home : List Char)
    (ctx : Ctx) (line : List Char) : Option (Action × Ctx) :=
  if line.getLast? = some '\\' then some (.buffer line.dropLast, ctx)
  else processFull env home { ctx with buffer := [] } (ctx.buffer ++ line)

/-- Embedding of `Context::register` (context.rs): canonicalize the path
(canonicalization is the filesystem's and is taken as an oracle `canon`,
`none` meaning the path does not exist or cannot be resolved), fail without
touching the registry on canonicalization failure, otherwise insert the
canonical path and report whether it was newly inserted. -/
def registerPath (canon : List Char → Option (List Char)) (ctx : Ctx)
    (p : List Char) : Except String (List Char × Bool) × Ctx :=
  match canon p with
  | none => (.error "cannot canonicalize path", ctx)
  | some c =>
    if c ∈ ctx.registry then (.ok (c, false), ctx)
    else (.ok (c, true), { ctx with registry := c :: ctx.registry })

/-- Embedding of `Context::dir_count`. -/
def dirCount (ctx : Ctx) : Nat :=
  ctx.registry.length

/-- Embedding of `Context::run_executable` (context.rs): asserts the argument
vector non-empty (`none` models the assertion panic); when the registry is
empty the current directory is inserted as the sole temporary target; every
registry entry becomes one execution target; afterwards the registry is
cleared again exactly when it had been empty.  Returns the target list the
command was spawned in, paired with the final context. -/
def runExecutable (ctx : Ctx) (cwd : List Char) (args : List (List Char)) :
    Option (List (List Char) × Ctx) :=
  if args.isEmpty then none
  else
    let wasEmpty := ctx.registry.isEmpty
    let targets := if wasEmpty then [cwd] else ctx.registry
    some (targets, { ctx with registry := if wasEmpty then [] else targets })

/-- Environment with no variables set, for closed examples. -/
def env0 : List Char → Option (List Char) := fun _ => none

/-- Environment with exactly `HOME=/u` set, for the expansion examples. -/
def envH : List Char → Option (List Char) := fun n =>
  if n = "HOME".data then some "/u".data else none

/-- Fresh session state. -/
def ctx0 : Ctx := ⟨[], []⟩

/-- Concrete canonicalization oracle for the registration witness: the
relative spelling `rel` and the absolute spelling `/a` both resolve to `/a`;
everything else fails to resolve. -/
def canonW : List Char → Option (List Char) := fun p =>
  if p = "rel".data || p = "/a".data then some "/a".data else none

theorem dropWhile_eq_self_of_takeWhile_nil {p : Char → Bool} {l : List Char}
    (h : l.takeWhile p = []) : l.dropWhile p = l := by
  cases l with
  | nil => rfl
  | cons c r =>
    rw [List.takeWhile_cons] at h
    rw [List.dropWhile_cons]
    by_cases hp : p c
    · simp [hp] at h
    · simp [hp]

theorem expandGo_refines_spec (env : List Char → Option (List Char))
    (home : List Char) (henv : env [] = none) :
    ∀ f s r, expandGo env home f s = some r → specExpandGo env home f s = some r := by
  intro f
  induction f with
  | zero => intro s r h; simp [expandGo] at h
  | succ f ih =>
    intro s r h
    match s with
    | [] => simpa [expandGo, specExpandGo] using h
    | c :: rest =>
      simp only [expandGo] at h
      simp only [specExpandGo]
      by_cases hb : c = '\\'
      · rw [if_pos hb] at h
        rw [if_pos hb]
        match rest with
        | [] => simp at h
        | x :: r2 =>
          rw [Option.map_eq_some'] at h ⊢
          obtain ⟨a, ha, hr⟩ := h
          exact ⟨a, ih r2 a ha, hr⟩
      · rw [if_neg hb] at h
        rw [if_neg hb]
        by_cases hd : c = '$'
        · rw [if_pos hd] at h
          rw [if_pos hd]
          cases htw : rest.takeWhile isVarChar with
          | nil =>
            rw [htw, henv, dropWhile_eq_self_of_takeWhile_nil htw] at h
            rw [Option.map_eq_some'] at h ⊢
            obtain ⟨a, ha, hr⟩ := h
            exact ⟨a, ih rest a ha, hr⟩
          | cons n ns =>
            rw [htw] at h
            rw [Option.map_eq_some'] at h ⊢
            obtain ⟨a, ha, hr⟩ := h
            exact ⟨a, ih _ a ha, hr⟩
        · rw [if_neg hd] at h
          rw [if_neg hd]
          by_cases ht : c = '~'
          · rw [if_pos ht] at h
            rw [if_pos ht]
            rw [Option.map_eq_some'] at h ⊢
            obtain ⟨a, ha, hr⟩ := h
            exact ⟨a, ih rest a ha, hr⟩
          · rw [if_neg ht] at h
            rw [if_neg ht]
            rw [Option.map_eq_some'] at h ⊢
            obtain ⟨a, ha, hr⟩ := h
            exact ⟨a, ih rest a ha, hr⟩

/-- C1: the claim says `var NAME` (no value) and `var -d NAME` each resolve to
an Action.  In the code they panic: `get_builtin` unwraps
`args.value_of("VALUE")` although no default value is declared for `VALUE`
(the comment `Default provided py the parser` notwithstanding), so both inputs
hit the unwrap-on-None panic before any Action is built.  With a value token
present the claimed behavior does hold: `var N V` resolves to `StoreEnv` and
`var -d N V` to `RemoveEnv` (delete takes precedence, the value is ignored). -/
theorem var_missing_value_panics :
    getBuiltin "/h".data ["var".data, "NAME".data] =
      .error "panicked: value_of(VALUE) unwrapped None" ∧
    getBuiltin "/h".data ["var".data, "-d".data, "NAME".data] =
      .error "panicked: value_of(VALUE) unwrapped None" ∧
    getBuiltin "/h".data ["var".data, "N".data, "V".data] =
      .ok (some (.storeEnv "N".data "V".data)) ∧
    getBuiltin "/h".data ["var".data, "-d".data, "N".data, "V".data] =
      .ok (some (.removeEnv "N".data)) :=
  ⟨rfl, rfl, rfl, rfl⟩

/-- C2: the claim says interpreting any raw input line returns an Action and
never panics.  The code refutes it: the raw line `a\\` is buffered as `a\`,
and interpreting the following empty raw line joins the buffer into the
logical line `a\`, whose token ends in a lone backslash; `expand_var` then
hits its `unreachable!()` (the comment claims the previous parser would have
consumed the next character, which is false for buffered lines).  `none`
models the panic. -/
theorem interpret_panics_on_buffered_trailing_backslash :
    handleLine env0 [] ctx0 "a\\\\".data = some (.buffer "a\\".data, ctx0) ∧
    handleLine env0 [] (pushBuffer ctx0 "a\\".data) [] = none :=
  ⟨by decide, by decide⟩

/-- C3 counterexample: a raw line ending in an escaped backslash `ab\\` IS
treated as a continuation request — `handle_line` tests only whether the last
character is a backslash — contradicting the claim that an escaped `\\` is not
treated as continuation. -/
theorem escaped_backslash_line_still_buffered :
    handleLine env0 [] ctx0 "ab\\\\".data = some (.buffer "ab\\".data, ctx0) := by
  decide

/-- C3 amended: a raw line whose last character is `\` — whether or not that
backslash is itself escaped — resolves immediately to the buffer-continuation
action carrying the line minus the trailing marker, with the tokenizer not
invoked and the context untouched; any other raw line is processed with the
buffered text concatenated in front of it (and the buffer cleared) before
tokenization. -/
theorem continuation_buffering_amended (env : List Char → Option (List Char))
    (home : List Char) :
    (∀ ctx l, l.getLast? = some '\\' →
      handleLine env home ctx l = some (.buffer l.dropLast, ctx)) ∧
    (∀ ctx l, l.getLast? ≠ some '\\' →
      handleLine env home ctx l =
        processFull env home { ctx with buffer := [] } (ctx.buffer ++ l)) := by
  constructor
  · intro ctx l h
    simp [handleLine, h]
  · intro ctx l h
    simp [handleLine, h]

theorem continuation_buffering_amended_witness :
    (("ab\\\\".data : List Char).getLast? = some '\\' ∧
      handleLine env0 [] ctx0 "ab\\\\".data = some (.buffer "ab\\".data, ctx0)) ∧
    (("a b".data : List Char).getLast? ≠ some '\\' ∧
      handleLine env0 [] ⟨"x ".data, []⟩ "a b".data =
        processFull env0 [] ctx0 "x a b".data) :=
  ⟨⟨by decide, (continuation_buffering_amended env0 []).1 ctx0 _ (by decide)⟩,
   ⟨by decide, (continuation_buffering_amended env0 []).2 ⟨"x ".data, []⟩ _ (by decide)⟩⟩

/-- C4 counterexample: `exit foo` has the recognized builtin name `exit` as
its first token and a surplus argument, yet it resolves to ExecuteExternal —
clap reports the surplus token as an `UnknownArgument` error, which
`get_builtin` treats as no-builtin-match and forwards to the command executor;
likewise a recognized builtin with an unknown flag (`var -x N`) yields
no-builtin-match. -/
theorem surplus_arg_builtin_executes_externally :
    handleLine env0 [] ctx0 "exit foo".data =
      some (.execute ["exit".data, "foo".data], ctx0) ∧
    getBuiltin [] ["var".data, "-x".data, "N".data] = .ok none :=
  ⟨by decide, by rfl⟩

/-- C4 amended: for a token list starting with a recognized builtin name, a
missing required argument (or any clap error other than unknown-argument,
unrecognized-subcommand and help) is reported and resolves to `Continue`
(`Action::Loop`), but an unknown flag or an unexpected surplus argument is an
`UnknownArgument` error, which is treated as no builtin match and falls
through to external execution. -/
theorem builtin_arg_error_dispatch_amended (home : List Char) :
    (∀ args, clapParse home args = .error .unknownArgument →
      getBuiltin home args = .ok none) ∧
    (∀ args, clapParse home args = .error .missingRequiredArgument →
      getBuiltin home args = .ok (some .loop)) ∧
    clapParse home ["exit".data, "foo".data] = .error .unknownArgument ∧
    clapParse home ["var".data, "-x".data, "N".data] = .error .unknownArgument ∧
    clapParse home ["register".data] = .error .missingRequiredArgument := by
  refine ⟨?_, ?_, by rfl, by rfl, by rfl⟩
  · intro args h
    simp [getBuiltin, h]
  · intro args h
    simp [getBuiltin, h]

theorem builtin_arg_error_dispatch_amended_witness :
    (Msh.clapParse [] ["exit".data, "foo".data] = .error .unknownArgument ∧
      getBuiltin [] ["exit".data, "foo".data] = .ok none) ∧
    (Msh.clapParse [] ["register".data] = .error .missingRequiredArgument ∧
      getBuiltin [] ["register".data] = .ok (some .loop)) :=
  ⟨⟨by rfl, (builtin_arg_error_dispatch_amended []).1 _ (by rfl)⟩,
   ⟨by rfl, (builtin_arg_error_dispatch_amended []).2.1 _ (by rfl)⟩⟩

/-- C5: executing a non-empty argv with an empty registry runs the command
against exactly one target, the current working directory, and the temporary
target is discarded afterwards: the registry (and so `count()`) is exactly as
empty after the call as before. -/
theorem execute_empty_registry_runs_once_and_preserves_count
    (ctx : Ctx) (cwd : List Char) (args : List (List Char))
    (hargs : args ≠ []) (hreg : ctx.registry = []) :
    runExecutable ctx cwd args = some ([cwd], ctx) ∧
    dirCount ctx = 0 := by
  obtain ⟨b, reg⟩ := ctx
  simp only at hreg
  subst hreg
  cases args with
  | nil => exact absurd rfl hargs
  | cons a as => exact ⟨rfl, rfl⟩

theorem execute_empty_registry_witness :
    (["ls".data] : List (List Char)) ≠ [] ∧ ctx0.registry = [] ∧
    runExecutable ctx0 "/w".data ["ls".data] = some (["/w".data], ctx0) ∧
    dirCount ctx0 = 0 :=
  ⟨by decide, rfl,
   (execute_empty_registry_runs_once_and_preserves_count ctx0 "/w".data
      ["ls".data] (by decide) rfl).1,
   (execute_empty_registry_runs_once_and_preserves_count ctx0 "/w".data
      ["ls".data] (by decide) rfl).2⟩

/-- C6: on every token that does not begin with a single quote, the
byte-by-byte scan of `expand_var` refines the specification's rewrite rules
(`\X` to literal `X`; `$NAME`, `NAME` in `[A-Za-z0-9_]+`, to the variable's
value or the literal `$NAME` when unset; `~` to the home directory; all other
bytes verbatim), stated against `specExpandGo`, which is written from the
spec's words; `env [] = none` records that the OS environment has no
empty-named variable.  In particular with `HOME=/u` expanding `$HOME/x` yields
`/u/x` and expanding `$UNSET` yields the literal `$UNSET`. -/
theorem expansion_follows_spec_rules :
    (∀ env home s r, env [] = none → s.head? ≠ some '\'' →
      expandVar env home s = some r → specExpandVar env home s = some r) ∧
    expandVar envH "/h".data "$HOME/x".data = some "/u/x".data ∧
    expandVar envH "/h".data "$UNSET".data = some "$UNSET".data ∧
    expandVar envH "/h".data "~/y".data = some "/h/y".data ∧
    expandVar envH "/h".data "\\X".data = some "X".data := by
  refine ⟨?_, by decide, by decide, by decide, by decide⟩
  intro env home s r henv hq h
  rw [expandVar, if_neg hq] at h
  exact expandGo_refines_spec env home henv (s.length + 1) s r h

theorem expansion_follows_spec_rules_witness :
    (env0 [] = none ∧ ("ab".data : List Char).head? ≠ some '\'' ∧
      expandVar env0 [] "ab".data = some "ab".data) ∧
    specExpandVar env0 [] "ab".data = some "ab".data :=
  ⟨⟨rfl, by decide, by decide⟩,
   expansion_follows_spec_rules.1 env0 [] "ab".data "ab".data rfl (by decide)
     (by decide)⟩

/-- C7: tokenizing a line that ends inside a quoted region fails with the
unterminated-quote error of the corresponding kind; the failure is scoped to
that line: `handle_line` reports it and returns `Loop` (Continue) with the
session state intact, and a subsequent well-formed line is processed
normally. -/
theorem unterminated_quote_is_line_scoped :
    tokenizeLine "echo \"abc".data = .error "Unterminated double quote" ∧
    tokenizeLine "echo 'abc".data = .error "Unterminated single quote" ∧
    handleLine env0 [] ctx0 "echo \"abc".data = some (.loop, ctx0) ∧
    handleLine env0 [] ctx0 "a b".data =
      some (.execute ["a".data, "b".data], ctx0) :=
  ⟨by rfl, by rfl, by decide, by decide⟩

/-- C8: registering the same logical directory twice — once through a relative
spelling, once through an absolute one, both canonicalizing to the same path —
reports `is_new = true` then `is_new = false` while `count()` stays 1, and a
path that cannot be canonicalized is rejected with an error and never stored. -/
theorem register_idempotent_on_canonical_path
    (canon : List Char → Option (List Char)) (ctx : Ctx)
    (rel absp c : List Char)
    (hreg : ctx.registry = []) (hrel : canon rel = some c)
    (habs : canon absp = some c) :
    registerPath canon ctx rel = (.ok (c, true), { ctx with registry := [c] }) ∧
    registerPath canon { ctx with registry := [c] } absp =
      (.ok (c, false), { ctx with registry := [c] }) ∧
    dirCount { ctx with registry := [c] } = 1 ∧
    (∀ ctx2 p, canon p = none →
      registerPath canon ctx2 p = (.error "cannot canonicalize path", ctx2)) := by
  refine ⟨?_, ?_, rfl, ?_⟩
  · simp [registerPath, hrel, hreg]
  · simp [registerPath, habs]
  · intro ctx2 p hp
    simp [registerPath, hp]

theorem register_idempotent_witness :
    (ctx0.registry = [] ∧ canonW "rel".data = some "/a".data ∧
      canonW "/a".data = some "/a".data) ∧
    registerPath canonW ctx0 "rel".data =
      (.ok ("/a".data, true), ⟨[], ["/a".data]⟩) ∧
    registerPath canonW ⟨[], ["/a".data]⟩ "/a".data =
      (.ok ("/a".data, false), ⟨[], ["/a".data]⟩) ∧
    dirCount ⟨[], ["/a".data]⟩ = 1 :=
  ⟨⟨rfl, by decide, by decide⟩,
   (register_idempotent_on_canonical_path canonW ctx0 "rel".data "/a".data
      "/a".data rfl (by decide) (by decide)).1,
   (register_idempotent_on_canonical_path canonW ctx0 "rel".data "/a".data
      "/a".data rfl (by decide) (by decide)).2.1,
   (register_idempotent_on_canonical_path canonW ctx0 "rel".data "/a".data
      "/a".data rfl (by decide) (by decide)).2.2.1⟩

/-- C9: tokenization splits a line at unquoted, unescaped runs of space/tab,
left to right, and keeps quote characters inside the produced tokens:
`a b` gives two tokens, `a "b c" d` keeps the double-quoted token with its
quotes, runs of blanks separate like single blanks, and an escaped blank does
not split. -/
theorem tokenize_splits_on_unquoted_whitespace :
    tokenizeLine "a b".data = .ok ["a".data, "b".data] ∧
    tokenizeLine "a \"b c\" d".data =
      .ok ["a".data, "\"b c\"".data, "d".data] ∧
    tokenizeLine "a   b".data = .ok ["a".data, "b".data] ∧
    tokenizeLine "a\\ b c".data = .ok ["a\\ b".data, "c".data] :=
  ⟨by rfl, by rfl, by rfl, by rfl⟩

/-- C10: the verbatim rule fires only when the single quote is the token's
first character.  In any other position a `'` is an ordinary byte: the scan
copies it and keeps substituting afterwards (first conjunct), so a
single-quoted region embedded later in the token still has `$NAME` expanded
inside it (`x'$HOME'` with `HOME=/u` becomes `x'/u'`), while the same region
at the start of a token is returned verbatim. -/
theorem embedded_single_quote_region_still_expanded :
    (∀ env home f rest, expandGo env home (f + 1) ('\'' :: rest) =
      (expandGo env home f rest).map (List.cons '\'')) ∧
    expandVar envH "/h".data "x'$HOME'".data = some "x'/u'".data ∧
    expandVar envH "/h".data "'$HOME'".data = some "'$HOME'".data :=
  ⟨fun _ _ _ _ => rfl, by decide, by decide⟩

end Msh
